import Mathlib

/-!
Verification of the `inzown-btn` daemon (src/inzown-btn.c).

This development shallowly embeds the components of the daemon that the
specification covers: the seconds quantizer, the action-name formatter, the
config-file reader, the action resolver / command assembly, the environment
handling for the config path, and the gesture state machine of `run`.
Machine integers are modelled as `Nat`/`Int` with explicit reductions
modulo 2^32 / 2^64 where C conversions occur; C's `/` and `%` on `int`
are `Int.tdiv` / `Int.tmod` (truncation toward zero).
-/

/-- `CLICK_TIMEOUT_MS` from the source. -/
def CLICK_TIMEOUT_MS : Nat := 400

/-- `HOLD_PRESS_TIMEOUT_MS = CLICK_TIMEOUT_MS` from the source. -/
def HOLD_PRESS_TIMEOUT_MS : Nat := CLICK_TIMEOUT_MS

/-- `seconds(int ticks)` from the source, with the globals `g_full_time` and
`g_offset_time` passed explicitly.  C `int` division/modulus truncate toward
zero, hence `Int.tdiv` / `Int.tmod`. -/
def seconds (ticks : Int) (full_time offset_time : Bool) : Int :=
  if offset_time then
    if full_time then -- f+o+
      (ticks + 500).tdiv 1000
    else              -- f-o+
      let sec := ticks.tdiv 1000
      sec + (sec + 1).tmod 2
  else
    if full_time then -- f+o-
      ticks.tdiv 1000
    else              -- f-o-
      1 + ((ticks - 1000).tdiv 2000) * 2

/-- `seconds` restricted to natural tick counts, written with `Nat`
operations (the `Nat` truncated subtraction in the f-o- case agrees with
the C computation, see `seconds_ofNat`). -/
def secondsNat : Nat → Bool → Bool → Nat
  | n, true, true => (n + 500) / 1000
  | n, false, true => n / 1000 + (n / 1000 + 1) % 2
  | n, true, false => n / 1000
  | n, false, false => 1 + ((n - 1000) / 2000) * 2

/-- `ACTION_NAME_SIZE` from the source. -/
def ACTION_NAME_SIZE : Nat := 11

/-- `ABSOLUTE_MAX_CLICK` from the source. -/
def ABSOLUTE_MAX_CLICK : Nat := 99

/-- `ABSOLUTE_MAX_HOLD` from the source. -/
def ABSOLUTE_MAX_HOLD : Nat := 99

/-- The `enum action_e` of the source (`A_DOWN`, `A_UP`, `A_CLICK`, `A_HOLD`). -/
inductive ActionE where
  | down
  | up
  | click
  | hold
deriving DecidableEq

/-- C conversion of an `unsigned int` value to `int` (two's-complement wrap). -/
def uintAsInt (u : Nat) : Int :=
  if u % 2 ^ 32 < 2 ^ 31 then ((u % 2 ^ 32 : Nat) : Int)
  else ((u % 2 ^ 32 : Nat) : Int) - 2 ^ 32

/-- C conversion of an `int` value to `unsigned int` (reduction mod 2^32). -/
def intAsUint (i : Int) : Nat := (i.emod (2 ^ 32)).toNat

/-- `get_action_name` from the source: formats the canonical action name.
`click_count` and `hold_time` are `unsigned` parameters (values mod 2^32);
the hold branch converts `seconds`'s `int` result back to `unsigned`. -/
def get_action_name (action : ActionE) (click_count hold_time : Nat)
    (full_time offset_time : Bool) : String :=
  match action with
  | .down => "DOWN"
  | .up => "UP"
  | .click =>
      if click_count % 2 ^ 32 ≤ ABSOLUTE_MAX_CLICK then
        "CLICK_" ++ Nat.repr (click_count % 2 ^ 32)
      else "CLICK_OTHER"
  | .hold =>
      let timer := intAsUint (seconds (uintAsInt hold_time) full_time offset_time)
      if timer ≤ ABSOLUTE_MAX_HOLD then
        "HOLD_" ++ Nat.repr timer ++ "S"
      else "HOLD_OTHER"

/-- Semantic events emitted by the run loop (`onDown`, `onUp`, `onHold`,
`onTimesClicked` in the source). -/
inductive Emit where
  | down
  | up
  | hold (num : Nat) (ms : Nat)
  | click (num : Nat)
deriving DecidableEq, Repr

/-- Inputs of the run loop: a button edge delivering the current level at a
monotonic timestamp (in ms), or an expiry of the one-shot click timer. -/
inductive Event where
  | edge (now : Nat) (pressed : Bool)
  | timerFire
deriving DecidableEq, Repr

/-- The mutable state of `run`: `pressed_at` (a `timestamp_ms_t`, an
`unsigned long long`), `timer_running`, `button_down`, `num_pressed`, plus
the expiry time the one-shot timerfd was last armed for. -/
structure RunState where
  pressed_at : Nat
  timer_running : Bool
  button_down : Bool
  num_pressed : Nat
  deadline : Nat
deriving DecidableEq, Repr

/-- Initial state of `run`: all fields zero / false. -/
def initState : RunState := ⟨0, false, false, 0, 0⟩

/-- One iteration of the `run` loop for a single ready descriptor, with the
click-count limit `limit` (`g_click_count_limit`).  Returns the new state
and the semantic events emitted during the iteration, in order. -/
def step (limit : Nat) (s : RunState) (e : Event) : RunState × List Emit :=
  match e with
  | .edge now pressed =>
      let timestamp := now % 2 ^ 64
      if pressed then
        let s1 :=
          if !s.timer_running then
            { s with button_down := true, num_pressed := 1, timer_running := true }
          else if limit == 0 || s.num_pressed < limit then
            { s with button_down := true, num_pressed := s.num_pressed + 1 }
          else
            { s with button_down := true }
        ({ s1 with pressed_at := timestamp, deadline := timestamp + CLICK_TIMEOUT_MS },
         [.down])
      else if s.button_down then
        let delta := (timestamp + (2 ^ 64 - s.pressed_at % 2 ^ 64)) % 2 ^ 64
        if s.pressed_at ≠ 0 ∧ HOLD_PRESS_TIMEOUT_MS ≤ delta then
          ({ s with button_down := false }, [.up, .hold s.num_pressed delta])
        else
          ({ s with button_down := false }, [.up])
      else
        (s, [])
  | .timerFire =>
      ({ s with timer_running := false },
       if !s.button_down then [.click s.num_pressed] else [])

/-- The state reached by `run` from `initState` after a list of events. -/
def runState (limit : Nat) (evs : List Event) : RunState :=
  evs.foldl (fun s e => (step limit s e).1) initState

/-- The emission trace produced from state `s` by a list of events. -/
def traceFrom (limit : Nat) (s : RunState) : List Event → List Emit
  | [] => []
  | e :: rest => (step limit s e).2 ++ traceFrom limit (step limit s e).1 rest

/-- Scans an emission trace checking that every `hold` is immediately
preceded by an `up`; the flag records whether the previous emission was
an `up`. -/
def holdOkFrom : Bool → List Emit → Bool
  | _, [] => true
  | prevUp, .hold _ _ :: rest => prevUp && holdOkFrom false rest
  | _, .up :: rest => holdOkFrom true rest
  | _, .down :: rest => holdOkFrom false rest
  | _, .click _ :: rest => holdOkFrom false rest

/-- `WHITESPACE_CHARS = " \t"` membership test for the config parser. -/
def isWS (c : Char) : Bool := c == ' ' || c == '\t'

/-- Result of processing one config line inside `read_config_value`:
skipped silently (trimmed remainder of length ≤ 1), the
"Unexpected syntax" warning branch (empty name), or a parsed entry. -/
inductive LineResult where
  | skip
  | synErr
  | entry (name value arg : List Char)
deriving DecidableEq

/-- The per-line processing of `read_config_value`: the line buffer is a C
string (cut at the first NUL); comments are cut at the first `#`, the line
at the first newline; leading blanks are skipped; the name is the first
non-blank run; with a non-NULL `args` pointer (`wantArgs`), the value is
cut at the next blank run and the remainder (blanks skipped) is the
argument, otherwise the whole rest is the value. -/
def trimmedLine (line : List Char) : List Char :=
  (((line.takeWhile (fun c => c != '\x00')).takeWhile (fun c => c != '#')).takeWhile
    (fun c => c != '\n')).dropWhile isWS

/-- The name/value/argument split applied to the trimmed remainder `p`. -/
def parseTrimmed (wantArgs : Bool) (p : List Char) : LineResult :=
  if p.length ≤ 1 then .skip
  else if p.takeWhile (fun c => !isWS c) = [] then .synErr
  else
    .entry (p.takeWhile (fun c => !isWS c))
      (if wantArgs then
        (((p.dropWhile (fun c => !isWS c)).dropWhile isWS).takeWhile (fun c => !isWS c))
       else (p.dropWhile (fun c => !isWS c)).dropWhile isWS)
      (if wantArgs then
        ((((p.dropWhile (fun c => !isWS c)).dropWhile isWS).dropWhile
          (fun c => !isWS c)).dropWhile isWS)
       else [])

def parseLine (wantArgs : Bool) (line : List Char) : LineResult :=
  parseTrimmed wantArgs (trimmedLine line)

/-- The scanning loop of `read_config_value`: first line whose name equals
the requested key and whose value and argument fit in `n` wins. -/
def scanLines (value_name : List Char) (wantArgs : Bool) (n : Nat) :
    List (List Char) → Option (List Char × List Char)
  | [] => none
  | l :: rest =>
      match parseLine wantArgs l with
      | .entry name value arg =>
          if name = value_name then
            if value.length < n ∧ arg.length < n then some (value, arg)
            else scanLines value_name wantArgs n rest
          else scanLines value_name wantArgs n rest
      | _ => scanLines value_name wantArgs n rest

/-- Result of `read_config_value`: the `found` flag together with the
strings written to `dst` and `args`. -/
structure LookupResult where
  found : Bool
  value : List Char
  arg : List Char
deriving DecidableEq

/-- `read_config_value(conf, value_name, dst, args, n, default_value)` from
the source.  `conf` is the contents of the configuration file as a list of
lines (or `none` when `fopen` fails); `wantArgs` is whether `args` is
non-NULL.  When no matching line fits, `dst` receives the default and
`args` is cleared. -/
def read_config_value (conf : Option (List (List Char))) (value_name : List Char)
    (wantArgs : Bool) (n : Nat) (default_value : List Char) : LookupResult :=
  match conf with
  | none => ⟨false, default_value, []⟩
  | some lines =>
      match scanLines value_name wantArgs n lines with
      | some (v, a) => ⟨true, v, if wantArgs then a else []⟩
      | none => ⟨false, default_value, []⟩

/-- `MAX_PATH_LENGTH` from the source. -/
def MAX_PATH_LENGTH : Nat := 4096

/-- `sizeof(cmd)` in `execute_action`: `MAX_PATH_LENGTH + 64`. -/
def CMD_SIZE : Nat := MAX_PATH_LENGTH + 64

def CLICK_OTHER_VALUE_NAME : List Char := ("CLICK_OTHER").toList

def HOLD_OTHER_VALUE_NAME : List Char := ("HOLD_OTHER").toList

/-- `get_action_script` from the source: lookup with "#"-default, fall back
to `CLICK_OTHER` / `HOLD_OTHER` when absent, clear the buffer when the
sentinel is still present. -/
def get_action_script (conf : Option (List (List Char))) (action : ActionE)
    (action_name : List Char) (buff_length : Nat) : List Char × List Char :=
  let r := read_config_value conf action_name true buff_length ['#']
  let r2 :=
    if r.value.head? = some '#' then
      match action with
      | .click => read_config_value conf CLICK_OTHER_VALUE_NAME true buff_length ['#']
      | .hold => read_config_value conf HOLD_OTHER_VALUE_NAME true buff_length ['#']
      | _ => r
    else r
  (if r2.value.head? = some '#' then [] else r2.value, r2.arg)

/-- POSIX `dirname` (libc, called by `get_action_script_path`). -/
def dirname (p : List Char) : List Char :=
  let q := (p.reverse.dropWhile (fun c => c == '/')).reverse
  if q = [] then (if p = [] then ['.'] else ['/'])
  else
    let r := (q.reverse.dropWhile (fun c => c != '/')).reverse
    if r = [] then ['.']
    else
      let r2 := (r.reverse.dropWhile (fun c => c == '/')).reverse
      if r2 = [] then ['/'] else r2

/-- `get_action_script_path` from the source (the script/args buffers for a
non-error, non-empty result; the `n` parameter is the caller's buffer
size).  An absolute value is used verbatim; a relative one is prefixed
with the dirname of the config path. -/
def get_action_script_path (conf : Option (List (List Char))) (conf_path : List Char)
    (action : ActionE) (click_count hold_time : Nat) (f o : Bool) (n : Nat) :
    List Char × List Char :=
  let action_name := (get_action_name action click_count hold_time f o).toList
  let sa := get_action_script conf action action_name MAX_PATH_LENGTH
  if sa.1 = [] then ([], [])
  else
    let script :=
      if sa.1.head? = some '/' then sa.1.take (n - 2)
      else (((dirname (conf_path.take MAX_PATH_LENGTH) ++ ['/']) ++ sa.1).take
        MAX_PATH_LENGTH).take (n - 1)
    (script, sa.2.take (n - 1))

/-- `execute_action` from the source, returning the command line passed to
`system` (`none` when no command is run: error or empty binding). -/
def execute_action_cmd (conf : Option (List (List Char))) (conf_path : List Char)
    (action : ActionE) (click_count hold_time : Nat) (f o : Bool) : Option (List Char) :=
  let sa := get_action_script_path conf conf_path action click_count hold_time f o CMD_SIZE
  if sa.1.length = 0 then none
  else
    let app : List Char :=
      match action with
      | .click =>
          if sa.2.length = 0 then ' ' :: (Nat.repr (click_count % 2 ^ 32)).toList
          else ' ' :: sa.2
      | .hold =>
          if sa.2.length = 0 then
            ' ' :: (Nat.repr (click_count % 2 ^ 32)).toList ++
              (' ' :: (Nat.repr (hold_time % 2 ^ 32)).toList)
          else ' ' :: sa.2
      | _ => []
    if CMD_SIZE - sa.1.length + 1 ≤ app.length then none
    else some (sa.1 ++ app)

/-- The string literal `"INZOWN_BTN_CFG="` from `main` (15 characters). -/
def INZOWN_ENV_NAME : List Char := ("INZOWN_BTN_CFG=").toList

/-- `strncmp(s1, s2, n) == 0` for NUL-free C strings: compare up to `n`
characters, stopping at the terminator of either string. -/
def cstrncmpEq : List Char → List Char → Nat → Bool
  | _, _, 0 => true
  | [], [], _ => true
  | [], _ :: _, _ => false
  | _ :: _, [], _ => false
  | c1 :: t1, c2 :: t2, n + 1 => c1 == c2 && cstrncmpEq t1 t2 n

/-- The built-in default `g_config_path`. -/
def DEFAULT_CONFIG_PATH : List Char := ("/etc/inzown/button.conf").toList

/-- The config-path selection of `main`: `--conf` (when given) is copied
into `g_config_path`; otherwise every environment entry is tested with
`strncmp("INZOWN_BTN_CFG=", envp[i], 16) == 0` and a match copies the text
after offset 16. -/
def config_path_from_env (conf_arg : Option (List Char)) (envp : List (List Char)) :
    List Char :=
  match conf_arg with
  | some p => p.take MAX_PATH_LENGTH
  | none =>
      envp.foldl
        (fun cur e =>
          if cstrncmpEq INZOWN_ENV_NAME e 16 then (e.drop 16).take MAX_PATH_LENGTH else cur)
        DEFAULT_CONFIG_PATH

theorem cast_tdiv_1000 (m : Nat) : ((m : Int)).tdiv 1000 = ((m / 1000 : Nat) : Int) := rfl

theorem cast_tdiv_2000 (m : Nat) : ((m : Int)).tdiv 2000 = ((m / 2000 : Nat) : Int) := rfl

theorem cast_tmod_2 (m : Nat) : ((m : Int)).tmod 2 = ((m % 2 : Nat) : Int) := rfl

theorem neg_cast_tdiv_2000 (k : Nat) : (-(k : Int)).tdiv 2000 = -((k / 2000 : Nat) : Int) := by
  cases k with
  | zero => rfl
  | succ k => rfl

/-- On natural inputs, `seconds` agrees with the `Nat`-level `secondsNat`. -/
theorem seconds_ofNat (n : Nat) (f o : Bool) :
    seconds (n : Int) f o = ((secondsNat n f o : Nat) : Int) := by
  cases o
  · cases f
    · -- f-o- : the subtraction may go negative in C
      show 1 + (((n : Int) - 1000).tdiv 2000) * 2 = ((1 + ((n - 1000) / 2000) * 2 : Nat) : Int)
      by_cases h : 1000 ≤ n
      · have h1 : ((n : Int)) - 1000 = ((n - 1000 : Nat) : Int) := by omega
        rw [h1, cast_tdiv_2000]
        push_cast
        ring
      · have h1 : ((n : Int)) - 1000 = -((1000 - n : Nat) : Int) := by omega
        have h2 : (1000 - n) / 2000 = 0 := by omega
        have h3 : (n - 1000) / 2000 = 0 := by omega
        rw [h1, neg_cast_tdiv_2000, h2, h3]
        norm_num
    · show ((n : Int)).tdiv 1000 = ((n / 1000 : Nat) : Int)
      exact cast_tdiv_1000 n
  · cases f
    · -- f-o+
      show ((n : Int)).tdiv 1000 + (((n : Int)).tdiv 1000 + 1).tmod 2
          = ((n / 1000 + (n / 1000 + 1) % 2 : Nat) : Int)
      rw [cast_tdiv_1000]
      have h1 : ((n / 1000 : Nat) : Int) + 1 = ((n / 1000 + 1 : Nat) : Int) := by omega
      rw [h1, cast_tmod_2]
      push_cast
      ring
    · show ((n : Int) + 500).tdiv 1000 = (((n + 500) / 1000 : Nat) : Int)
      have h1 : ((n : Int)) + 500 = ((n + 500 : Nat) : Int) := by omega
      rw [h1, cast_tdiv_1000]

theorem secondsNat_mono (n1 n2 : Nat) (h : n1 ≤ n2) (f o : Bool) :
    secondsNat n1 f o ≤ secondsNat n2 f o := by
  cases o <;> cases f <;> simp only [secondsNat] <;> omega

/-- C5: for all `400 ≤ ticks1 ≤ ticks2` and every setting of the two flags,
`seconds ticks1 ≤ seconds ticks2`: the quantizer is monotonic non-decreasing. -/
theorem seconds_mono (t1 t2 : Int) (h4 : 400 ≤ t1) (h12 : t1 ≤ t2) (f o : Bool) :
    seconds t1 f o ≤ seconds t2 f o := by
  have hn1 : t1 = ((t1.toNat : Nat) : Int) := by omega
  have hn2 : t2 = ((t2.toNat : Nat) : Int) := by omega
  rw [hn1, hn2, seconds_ofNat, seconds_ofNat]
  have h := secondsNat_mono t1.toNat t2.toNat (by omega) f o
  omega

/-- Witness for C5 at ticks1 = 400, ticks2 = 1200 in the default regime. -/
theorem seconds_mono_witness :
    (400 : Int) ≤ 1200 ∧ seconds 400 false false ≤ seconds 1200 false false :=
  ⟨by decide, seconds_mono 400 1200 (by decide) (by decide) false false⟩

/-- C6: with both flags false, `seconds` computes `1 + ((ticks - 1000) / 2000) * 2`
with C truncating division, and the result is always an odd integer. -/
theorem seconds_default_formula_odd (t : Int) (_h : 400 ≤ t) :
    seconds t false false = 1 + ((t - 1000).tdiv 2000) * 2 ∧ Odd (seconds t false false) := by
  refine ⟨rfl, ?_⟩
  show Odd (1 + ((t - 1000).tdiv 2000) * 2)
  exact ⟨(t - 1000).tdiv 2000, by ring⟩

/-- Witness for C6 at ticks = 400. -/
theorem seconds_default_formula_odd_witness :
    seconds 400 false false = 1 + (((400 : Int) - 1000).tdiv 2000) * 2 ∧
      Odd (seconds 400 false false) :=
  seconds_default_formula_odd 400 (by decide)

theorem repr_length_le_two : ∀ k < 100, (Nat.repr k).length ≤ 2 := by decide

theorem click_branch_len (k : Nat) :
    (if k ≤ ABSOLUTE_MAX_CLICK then "CLICK_" ++ Nat.repr k
     else "CLICK_OTHER").length ≤ ACTION_NAME_SIZE := by
  split
  · rename_i h
    rw [String.length_append]
    have h2 := repr_length_le_two k (by simpa [ABSOLUTE_MAX_CLICK] using Nat.lt_succ_of_le h)
    have h6 : ("CLICK_" : String).length = 6 := rfl
    simp only [ACTION_NAME_SIZE]
    omega
  · decide

theorem hold_branch_len (timer : Nat) :
    (if timer ≤ ABSOLUTE_MAX_HOLD then "HOLD_" ++ Nat.repr timer ++ "S"
     else "HOLD_OTHER").length ≤ ACTION_NAME_SIZE := by
  split
  · rename_i h
    rw [String.length_append, String.length_append]
    have h2 := repr_length_le_two timer (by simpa [ABSOLUTE_MAX_HOLD] using Nat.lt_succ_of_le h)
    have h5 : ("HOLD_" : String).length = 5 := rfl
    have h1 : ("S" : String).length = 1 := rfl
    simp only [ACTION_NAME_SIZE]
    omega
  · decide

/-- C7: for every action kind and every payload, the formatted action name
has length at most `ACTION_NAME_SIZE = 11`, so it fits in the source's
11-char buffer plus NUL terminator. -/
theorem get_action_name_fits (action : ActionE) (click_count hold_time : Nat)
    (f o : Bool) :
    (get_action_name action click_count hold_time f o).length ≤ ACTION_NAME_SIZE := by
  cases action
  · show ("DOWN" : String).length ≤ ACTION_NAME_SIZE
    decide
  · show ("UP" : String).length ≤ ACTION_NAME_SIZE
    decide
  · exact click_branch_len (click_count % 2 ^ 32)
  · exact hold_branch_len (intAsUint (seconds (uintAsInt hold_time) f o))

theorem step_timer_inv (limit : Nat) (s : RunState) (e : Event)
    (h : s.timer_running = true → 1 ≤ s.num_pressed) :
    (step limit s e).1.timer_running = true → 1 ≤ (step limit s e).1.num_pressed := by
  cases e with
  | timerFire => exact fun hh => absurd hh (by simp [step])
  | edge now pressed =>
      dsimp only [step]
      split_ifs <;> simp_all

theorem runState_timer_inv (limit : Nat) (evs : List Event) :
    (runState limit evs).timer_running = true → 1 ≤ (runState limit evs).num_pressed := by
  suffices h : ∀ (l : List Event) (s : RunState), (s.timer_running = true → 1 ≤ s.num_pressed) →
      ((l.foldl (fun s e => (step limit s e).1) s).timer_running = true →
        1 ≤ (l.foldl (fun s e => (step limit s e).1) s).num_pressed) by
    exact h evs initState (by decide)
  intro l
  induction l with
  | nil => exact fun s hs => hs
  | cons e rest ih =>
    intro s hs
    simp only [List.foldl_cons]
    exact ih _ (step_timer_inv limit s e hs)

/-- C3 counterexample: after a press at t = 10 followed by the click-timer
expiry, the reachable state has `timer_running = false` yet
`press_count = 1 ≠ 0`: the second half of the claimed invariant fails. -/
theorem press_count_after_timer_cex :
    (runState 8 [Event.edge 10 true, Event.timerFire]).timer_running = false ∧
      (runState 8 [Event.edge 10 true, Event.timerFire]).num_pressed = 1 := by
  decide

/-- C3 (amended): in every reachable state of the gesture FSM,
`press_count ≥ 1` holds whenever `timer_running` is true; `press_count` is
not reset when the timer fires, so it need not be 0 while the timer is
stopped (it is reset to 1 only at the next press). -/
theorem timer_running_press_count (limit : Nat) (evs : List Event) :
    (runState limit evs).timer_running = true → 1 ≤ (runState limit evs).num_pressed :=
  runState_timer_inv limit evs

/-- Witness for the amended C3 after a single press. -/
theorem timer_running_press_count_witness :
    (runState 8 [Event.edge 10 true]).timer_running = true ∧
      1 ≤ (runState 8 [Event.edge 10 true]).num_pressed :=
  ⟨by decide, timer_running_press_count 8 [Event.edge 10 true] (by decide)⟩

theorem step_count_le (limit : Nat) (s : RunState) (e : Event)
    (h : s.num_pressed ≤ limit) (hpos : 0 < limit) :
    (step limit s e).1.num_pressed ≤ limit := by
  cases e with
  | timerFire => exact h
  | edge now pressed =>
      dsimp only [step]
      split_ifs <;> simp_all <;> omega

theorem runState_count_le (limit : Nat) (hpos : 0 < limit) (evs : List Event) :
    (runState limit evs).num_pressed ≤ limit := by
  suffices h : ∀ (l : List Event) (s : RunState), s.num_pressed ≤ limit →
      (l.foldl (fun s e => (step limit s e).1) s).num_pressed ≤ limit by
    exact h evs initState (by simp [initState])
  intro l
  induction l with
  | nil => exact fun s hs => hs
  | cons e rest ih =>
    intro s hs
    simp only [List.foldl_cons]
    exact ih _ (step_count_le limit s e hs hpos)

/-- C4: with a positive click-count limit, `press_count` never exceeds the
limit in any reachable state; and a DOWN edge arriving while `press_count`
is at the limit (within the click window, i.e. with the timer running)
leaves `press_count` unchanged but still re-arms the one-shot timer for
`CLICK_TIMEOUT_MS` from now. -/
theorem click_count_limit_clamps (limit : Nat) (hpos : 0 < limit) :
    (∀ evs, (runState limit evs).num_pressed ≤ limit) ∧
    (∀ (s : RunState) (now : Nat), s.num_pressed = limit → s.timer_running = true →
      (step limit s (Event.edge now true)).1.num_pressed = s.num_pressed ∧
      (step limit s (Event.edge now true)).1.deadline = now % 2 ^ 64 + CLICK_TIMEOUT_MS) := by
  refine ⟨runState_count_le limit hpos, ?_⟩
  intro s now h1 h2
  dsimp only [step]
  split_ifs <;> simp_all

/-- Witness for C4 with limit 1: a second press inside the window does not
increase the count, and the clamped press re-arms the timer. -/
theorem click_count_limit_clamps_witness :
    (runState 1 [Event.edge 10 true, Event.edge 50 true]).num_pressed ≤ 1 ∧
      (step 1 (runState 1 [Event.edge 10 true]) (Event.edge 100 true)).1.num_pressed
        = (runState 1 [Event.edge 10 true]).num_pressed ∧
      (step 1 (runState 1 [Event.edge 10 true]) (Event.edge 100 true)).1.deadline
        = 100 % 2 ^ 64 + CLICK_TIMEOUT_MS := by
  refine ⟨(click_count_limit_clamps 1 (by decide)).1 _, ?_, ?_⟩
  · exact ((click_count_limit_clamps 1 (by decide)).2 (runState 1 [Event.edge 10 true]) 100
      (by decide) (by decide)).1
  · exact ((click_count_limit_clamps 1 (by decide)).2 (runState 1 [Event.edge 10 true]) 100
      (by decide) (by decide)).2

theorem holdOkFrom_mono (l : List Emit) (b : Bool) (h : holdOkFrom false l = true) :
    holdOkFrom b l = true := by
  cases l with
  | nil => rfl
  | cons e rest =>
    cases e with
    | hold n d => simp [holdOkFrom] at h
    | up => exact h
    | down => exact h
    | click n => exact h

theorem holdOk_chunk (c t : List Emit)
    (hc : c = [] ∨ c = [Emit.down] ∨ c = [Emit.up] ∨
      (∃ n d, c = [Emit.up, Emit.hold n d]) ∨ ∃ n, c = [Emit.click n])
    (ht : holdOkFrom false t = true) : holdOkFrom false (c ++ t) = true := by
  rcases hc with rfl | rfl | rfl | ⟨n, d, rfl⟩ | ⟨n, rfl⟩
  · exact ht
  · simpa [holdOkFrom] using ht
  · simpa [holdOkFrom] using holdOkFrom_mono t true ht
  · simpa [holdOkFrom] using ht
  · simpa [holdOkFrom] using ht

theorem step_out_shape (limit : Nat) (s : RunState) (e : Event) :
    (step limit s e).2 = [] ∨ (step limit s e).2 = [Emit.down] ∨
      (step limit s e).2 = [Emit.up] ∨
      (∃ n d, (step limit s e).2 = [Emit.up, Emit.hold n d]) ∨
      ∃ n, (step limit s e).2 = [Emit.click n] := by
  cases e with
  | timerFire =>
      dsimp only [step]
      split_ifs <;> simp
  | edge now pressed =>
      dsimp only [step]
      split_ifs <;> simp

theorem traceFrom_holdOk (limit : Nat) :
    ∀ (evs : List Event) (s : RunState), holdOkFrom false (traceFrom limit s evs) = true := by
  intro evs
  induction evs with
  | nil => intro s; rfl
  | cons e rest ih =>
    intro s
    exact holdOk_chunk _ _ (step_out_shape limit s e) (ih _)

/-- C8: in every run of the gesture FSM, every emitted HOLD event is
immediately preceded by the UP event emitted for the same release edge
(they are emitted back-to-back inside the same release branch). -/
theorem hold_immediately_after_up (limit : Nat) (evs : List Event) :
    holdOkFrom false (traceFrom limit initState evs) = true :=
  traceFrom_holdOk limit evs initState

theorem dropWhile_head_false (q : Char → Bool) :
    ∀ (l : List Char) (c : Char) (cs : List Char), l.dropWhile q = c :: cs → q c = false := by
  intro l
  induction l with
  | nil => intro c cs h; simp [List.dropWhile] at h
  | cons a t ih =>
      intro c cs h
      by_cases hq : q a
      · rw [List.dropWhile_cons_of_pos hq] at h
        exact ih c cs h
      · rw [List.dropWhile_cons_of_neg hq] at h
        cases h
        simpa using hq

theorem parseTrimmed_dropWhile_ne_synErr (wantArgs : Bool) (l : List Char) :
    parseTrimmed wantArgs (l.dropWhile isWS) ≠ LineResult.synErr := by
  unfold parseTrimmed
  split
  · simp
  · split
    · rename_i hlen hname
      exfalso
      have hne : l.dropWhile isWS ≠ [] := by
        intro hnil
        rw [hnil] at hlen
        simp at hlen
      obtain ⟨c, cs, hcons⟩ := List.exists_cons_of_ne_nil hne
      have hc : isWS c = false := dropWhile_head_false isWS l c cs hcons
      rw [hcons, List.takeWhile_cons_of_pos (by simp [hc])] at hname
      simp at hname
    · simp

/-- C9: the "Unexpected syntax" (zero-length-name) warning branch of
`read_config_value` is unreachable: after cutting the line at `#`,
stripping the newline and skipping leading blanks, any remainder of
length > 1 starts with a non-blank character, so the parsed name is
never empty. -/
theorem syntax_warning_unreachable (wantArgs : Bool) (line : List Char) :
    parseLine wantArgs line ≠ LineResult.synErr :=
  parseTrimmed_dropWhile_ne_synErr wantArgs _

theorem trimmedLine_no_hash (line : List Char) (c : Char) (hc : c ∈ trimmedLine line) :
    (c != '#') = true := by
  unfold trimmedLine at hc
  have h1 := (List.dropWhile_sublist isWS).subset hc
  have h2 := (List.takeWhile_sublist (fun c => c != '\n')).subset h1
  have h3 := List.mem_takeWhile_imp h2
  simpa using h3

theorem parseLine_entry_value_no_hash (wantArgs : Bool) (line name value arg : List Char)
    (h : parseLine wantArgs line = LineResult.entry name value arg) :
    ∀ c ∈ value, (c != '#') = true := by
  intro c hc
  apply trimmedLine_no_hash line
  unfold parseLine parseTrimmed at h
  split at h
  · simp at h
  · split at h
    · simp at h
    · injection h with hn hv ha
      subst hv
      split at hc
      · exact (List.dropWhile_sublist _).subset
          ((List.dropWhile_sublist _).subset ((List.takeWhile_sublist _).subset hc))
      · exact (List.dropWhile_sublist _).subset ((List.dropWhile_sublist _).subset hc)

theorem scanLines_value_no_hash (key : List Char) (n : Nat) :
    ∀ (lines : List (List Char)) (v a : List Char),
      scanLines key true n lines = some (v, a) → ∀ c ∈ v, (c != '#') = true := by
  intro lines
  induction lines with
  | nil => intro v a h; simp [scanLines] at h
  | cons l rest ih =>
      intro v a h
      unfold scanLines at h
      split at h
      · rename_i name value arg heq
        split at h
        · split at h
          · injection h with h2
            injection h2 with hv ha
            subst hv
            exact parseLine_entry_value_no_hash true l name value arg heq
          · exact ih v a h
        · exact ih v a h
      · exact ih v a h

/-- C10: a config lookup (with the callers' `"#"` default) returns a value
beginning with `'#'` iff the requested key was not found (including the
absent-file case): lines are cut at the first `#` before parsing, so no
configured value can ever contain `'#'`, and the sentinel cannot collide
with a real value. -/
theorem hash_sentinel_iff_absent (conf : Option (List (List Char))) (key : List Char)
    (n : Nat) :
    ((read_config_value conf key true n ['#']).value.head? = some '#') ↔
      (read_config_value conf key true n ['#']).found = false := by
  cases conf with
  | none => simp [read_config_value]
  | some lines =>
      unfold read_config_value
      dsimp only
      cases hs : scanLines key true n lines with
      | none => simp
      | some va =>
          obtain ⟨v, a⟩ := va
          dsimp only
          constructor
          · intro hhead
            exfalso
            have hv := scanLines_value_no_hash key n lines v a hs
            cases v with
            | nil => simp at hhead
            | cons c cs =>
                simp at hhead
                subst hhead
                have hcontra := hv '#' (by simp)
                simp at hcontra
          · intro hfound
            simp at hfound

/-- C1 counterexample: with the config line `CLICK_1 /bin/echo one`, the
resolver executes `/bin/echo one`, not `/bin/echo one 1` — the second
token "one" is parsed as the explicit argument, not as part of the value,
and an explicit argument suppresses the auto-appended click count. -/
theorem click1_echo_cex :
    execute_action_cmd (some [("CLICK_1 /bin/echo one").toList])
        ("/etc/inzown/button.conf").toList ActionE.click 1 0 false false
      = some ("/bin/echo one").toList ∧
      ("/bin/echo one").toList ≠ ("/bin/echo one 1").toList := by
  decide

/-- C1 (amended): a file containing `CLICK_1 /bin/echo one` makes
resolve(CLICK, 1, 0) yield `/bin/echo one`: the value is `/bin/echo`, the
explicit arg `one` is appended, and the click count is not appended. -/
theorem click1_echo_resolves :
    execute_action_cmd (some [("CLICK_1 /bin/echo one").toList])
        ("/etc/inzown/button.conf").toList ActionE.click 1 0 false false
      = some ("/bin/echo one").toList := by
  decide

theorem cstrncmpEq_env_nonempty (c : Char) (cs : List Char) :
    cstrncmpEq INZOWN_ENV_NAME (INZOWN_ENV_NAME ++ c :: cs) 16 = false := rfl

/-- C2 (code bug): whenever `INZOWN_BTN_CFG` is set to a NON-empty value
and `--conf` is absent, the program keeps the built-in default config
path.  `strncmp` is called with length 16 although the prefix
`"INZOWN_BTN_CFG="` has only 15 characters, so the 16th compared byte is
the literal's NUL terminator and only an entry with an empty value can
match. -/
theorem env_var_ignored (c : Char) (cs : List Char) :
    config_path_from_env none [INZOWN_ENV_NAME ++ c :: cs] = DEFAULT_CONFIG_PATH := by
  unfold config_path_from_env
  rw [List.foldl_cons, List.foldl_nil, cstrncmpEq_env_nonempty]
  simp

/-- The concrete failing input: `INZOWN_BTN_CFG=/tmp/btn.conf` leaves the
config path at `/etc/inzown/button.conf` instead of `/tmp/btn.conf`. -/
theorem env_var_ignored_example :
    config_path_from_env none [("INZOWN_BTN_CFG=/tmp/btn.conf").toList] = DEFAULT_CONFIG_PATH ∧
      DEFAULT_CONFIG_PATH ≠ ("/tmp/btn.conf").toList ∧
      ("INZOWN_BTN_CFG=/tmp/btn.conf").toList = INZOWN_ENV_NAME ++ ("/tmp/btn.conf").toList := by
  decide

/-- Sanity check of the FSM model: a press at 10 ms released at 610 ms
emits DOWN, UP and HOLD(1, 600). -/
theorem trace_press_hold_sample :
    traceFrom 8 initState [Event.edge 10 true, Event.edge 610 false]
      = [Emit.down, Emit.up, Emit.hold 1 600] := by decide

/-- Sanity check of the FSM model: two quick clicks followed by the timer
expiry emit DOWN, UP, DOWN, UP, CLICK(2). -/
theorem trace_double_click_sample :
    traceFrom 8 initState [Event.edge 10 true, Event.edge 60 false, Event.edge 160 true,
      Event.edge 210 false, Event.timerFire]
      = [Emit.down, Emit.up, Emit.down, Emit.up, Emit.click 2] := by decide
